import Mathlib

/-!
Shallow embedding of `speech-recognizer/preprocessing.py`: the `AudioGenerator`
class (batch assembly, featurization dispatch, normalization, shuffling) and the
module-level `shuffle_data` / `sort_data` utilities, together with theorems about
the batching invariants.

Python floats are modelled as rationals (`ℚ`), numpy arrays as nested lists, and
fallible statements as `Except PyError`.  External collaborators that live outside
the translated file (`utils.calc_feat_dim`, `utils.spectrogram_from_file`,
`utils.text_to_int_sequence`, `numpy`'s sorting/permutation routines) are modelled
from the spec as noted at each definition.
-/

namespace Preprocessing

/-- Errors a call can surface: a `raise Exception(msg)` from the translated file,
a Python `AttributeError` (reading a never-assigned attribute), an `IndexError`
(list index out of range), and a `ValueError` (numpy shape/broadcast errors and
`max` of an empty sequence). -/
inductive PyError where
  | exception (msg : String)
  | attributeError
  | indexError
  | valueError
deriving DecidableEq, Repr

/-- A 2D float array (time-steps × feature-dimension). -/
abbrev Mat := List (List ℚ)

/-- Modelled from the spec: the Featurizer collaborators
(`utils.spectrogram_from_file`, absent from the sources, and the external
`mfcc`/`wav.read` libraries) map an audio reference to a 2D feature matrix, so an
audio clip is modelled as carrying the matrix each extractor would produce for it. -/
structure AudioClip where
  spec_feat : Mat
  mfcc_feat : Mat
deriving DecidableEq, Inhabited

/-- State of an `AudioGenerator` object (fields assigned in `__init__`,
lines 28-44).  `test_valid_index` models the attribute read at line 62: no code
ever assigns it (the constructor assigns `cur_test_index` instead), so it is an
`Option` that `__init__` leaves at `none`; reading `none` is an `AttributeError`. -/
structure AudioGenerator where
  step : ℚ
  window : ℚ
  max_freq : ℚ
  feat_dim : Nat
  mfcc_dim : Nat
  feats_mean : List ℚ
  feats_std : List ℚ
  cur_train_index : Nat
  cur_valid_index : Nat
  cur_test_index : Nat
  test_valid_index : Option Nat
  max_duration : ℚ
  minimum_batch_size : Nat
  spectrogram : Bool
  sort_by_duration : Bool
  train_audio_paths : List AudioClip
  train_durations : List ℚ
  train_texts : List (List Char)
  valid_audio_paths : List AudioClip
  valid_durations : List ℚ
  valid_texts : List (List Char)
  test_audio_paths : List AudioClip
  test_durations : List ℚ
  test_texts : List (List Char)
deriving DecidableEq

/-- Modelled from the spec: `utils.calc_feat_dim` is absent from the sources; the
spec says the feature dimension is derived deterministically from the window size
and the maximum frequency in spectrogram mode (the spectrogram bin count).  We
model it as the count of FFT bins in `[0, max_freq]` for a window of `window`
milliseconds: `floor(window / 1000 * max_freq) + 1` (161 for the defaults
`window = 20`, `max_freq = 8000`). -/
def calc_feat_dim (window max_freq : ℚ) : Nat :=
  (⌊window / 1000 * max_freq⌋).toNat + 1

/-- Translation of `AudioGenerator.__init__` (lines 15-44).  The partition
sequences are passed directly: `load_metadata_from_desc_file` is absent from the
sources and the spec places corpus loading out of scope, the core only consuming
the three parallel sequences per partition. -/
def init (step window max_freq : ℚ) (mfcc_dim minimum_batch_size : Nat)
    (spectrogram : Bool) (max_duration : ℚ) (sort_by_duration : Bool)
    (train_audio_paths : List AudioClip) (train_durations : List ℚ)
    (train_texts : List (List Char))
    (valid_audio_paths : List AudioClip) (valid_durations : List ℚ)
    (valid_texts : List (List Char))
    (test_audio_paths : List AudioClip) (test_durations : List ℚ)
    (test_texts : List (List Char)) : AudioGenerator :=
  { step := step
    window := window
    max_freq := max_freq
    feat_dim := calc_feat_dim window max_freq
    mfcc_dim := mfcc_dim
    feats_mean := List.replicate (calc_feat_dim window max_freq) 0
    feats_std := List.replicate (calc_feat_dim window max_freq) 1
    cur_train_index := 0
    cur_valid_index := 0
    cur_test_index := 0
    test_valid_index := none
    max_duration := max_duration
    minimum_batch_size := minimum_batch_size
    spectrogram := spectrogram
    sort_by_duration := sort_by_duration
    train_audio_paths := train_audio_paths
    train_durations := train_durations
    train_texts := train_texts
    valid_audio_paths := valid_audio_paths
    valid_durations := valid_durations
    valid_texts := valid_texts
    test_audio_paths := test_audio_paths
    test_durations := test_durations
    test_texts := test_texts }

/-- The default `eps` of `normalize` (line 117): `1e-14`. -/
def eps : ℚ := 1 / 10 ^ 14

/-- Modelled from the spec: the character vocabulary of
`utils.text_to_int_sequence` (absent from the sources) has real character codes
`0..27`, so the vocabulary size — one past the last real character code — is 28,
the literal used at line 80 to fill the label tensor with blanks. -/
def vocab_size : Nat := 28

/-- Elementwise numpy binary operation between a 2D array of shape `(T, W)` and a
1D array of shape `(L,)`, following numpy broadcasting: defined when `W = L`, or
one of `W`, `L` is `1`; otherwise a `ValueError`.  A float ndarray is rectangular,
so a ragged `Mat` (which cannot arise from an ndarray) is also an error. -/
def bcastOp (f : ℚ → ℚ → ℚ) (m : Mat) (v : List ℚ) : Except PyError Mat :=
  if m.all (fun row => row.length = (m.headD []).length) then
    if (m.headD []).length = v.length then
      .ok (m.map (fun row => row.zipWith f v))
    else if v.length = 1 then
      .ok (m.map (fun row => row.map (fun x => f x (v.headD 0))))
    else if (m.headD []).length = 1 then
      .ok (m.map (fun row => v.map (fun y => f (row.headD 0) y)))
    else .error .valueError
  else .error .valueError

/-- Translation of `AudioGenerator.normalize` (lines 117-122):
`(feature - feats_mean) / (feats_std + eps)`, the subtraction evaluated first. -/
def normalize (g : AudioGenerator) (feature : Mat) : Except PyError Mat := do
  let centered ← bcastOp (fun a b => a - b) feature g.feats_mean
  bcastOp (fun a b => a / b) centered (g.feats_std.map (fun s => s + eps))

/-- Translation of `AudioGenerator.featurize` (lines 104-115): dispatches on the
spectrogram flag to the corresponding extractor's output. -/
def featurize (g : AudioGenerator) (audio_clip : AudioClip) : Mat :=
  if g.spectrogram then audio_clip.spec_feat else audio_clip.mfcc_feat

/-- Translation of the partition dispatch of `get_batch` (lines 52-66): selects
the audio paths, current index and texts of the partition; the `test` branch reads
`self.test_valid_index`, an attribute no code assigns, and an unrecognized
partition raises. -/
def partitionSel (g : AudioGenerator) (partition : String) :
    Except PyError (List AudioClip × Nat × List (List Char)) :=
  if partition = "train" then
    .ok (g.train_audio_paths, g.cur_train_index, g.train_texts)
  else if partition = "valid" then
    .ok (g.valid_audio_paths, g.cur_valid_index, g.valid_texts)
  else if partition = "test" then
    match g.test_valid_index with
    | some i => .ok (g.test_audio_paths, i, g.test_texts)
    | none => .error .attributeError
  else .error (.exception "Invalid partition. Must be train/validation or test")

/-- Left-to-right evaluation of a list of fallible computations (a Python list
comprehension or loop whose body may raise): stops at the first error. -/
def mapExcept (f : α → Except PyError β) : List α → Except PyError (List β)
  | [] => .ok []
  | a :: as => do
    let b ← f a
    let rest ← mapExcept f as
    .ok (b :: rest)

/-- Translation of the per-example feature write (lines 86-88):
`input_data[i, :feat.shape[0], :] = feat` into a zero-initialized row of shape
`(max_length, width)`, recording `input_length[i] = feat.shape[0]`.  The numpy
assignment requires the source to match the sliced target shape (each feature row
of width `width`, at most `max_length` feature rows); otherwise a `ValueError`. -/
def inputWrite (width max_length : Nat) (feat : Mat) : Except PyError (Mat × Nat) :=
  if feat.all (fun row => row.length = width) ∧ feat.length ≤ max_length then
    .ok (feat ++ List.replicate (max_length - feat.length) (List.replicate width 0),
         feat.length)
  else .error .valueError

/-- Translation of the per-example label write (lines 91-93):
`label = text_to_int_sequence(text)`; `labels[i, :len(label)] = label` into a row
filled with the blank `28`, recording `label_length[i] = len(label)`.  The numpy
slice clips at the allocated width `max_string_length`, so the assignment succeeds
exactly when `len(label) ≤ max_string_length`; otherwise a `ValueError`.
The label encoder `enc` stands for `utils.text_to_int_sequence`, which is absent
from the sources (modelled from the spec: transcript string → integer code
sequence). -/
def labelWrite (enc : List Char → List Nat) (max_string_length : Nat)
    (text : List Char) : Except PyError (List ℚ × Nat) :=
  if (enc text).length ≤ max_string_length then
    .ok ((List.map (fun k => ((k : ℕ) : ℚ)) (enc text)) ++
           List.replicate (max_string_length - (enc text).length) ((vocab_size : ℚ)),
         (enc text).length)
  else .error .valueError

/-- One iteration of the assembly loop (lines 84-93) for one example: the feature
write then the label write. -/
def assembleRow (enc : List Char → List Nat) (width max_length max_string_length : Nat)
    (ft : Mat × List Char) : Except PyError ((Mat × Nat) × (List ℚ × Nat)) := do
  let iw ← inputWrite width max_length ft.1
  let lw ← labelWrite enc max_string_length ft.2
  .ok (iw, lw)

/-- The `inputs` dictionary returned by `get_batch` (lines 97-101).
`input_length` and `label_length` are allocated as `(batch, 1)` column vectors
holding the integer lengths; we record the integer values. -/
structure BatchInputs where
  the_input : List Mat
  the_labels : Mat
  input_length : List Nat
  label_length : List Nat
deriving DecidableEq

/-- The `outputs` dictionary returned by `get_batch` (line 96). -/
structure BatchOutputs where
  ctc : List ℚ
deriving DecidableEq

/-- Translation of the body of `AudioGenerator.get_batch` (lines 46-102), in the
Python evaluation order: partition dispatch; the feature list comprehension over
`audio_paths[cur_index : cur_index + minimum_batch_size]`; `max` of the feature
time-lengths over `range(minimum_batch_size)` (a `ValueError` on an empty batch,
an `IndexError` when the slice yielded fewer than `minimum_batch_size` features);
`max` of `len(texts[cur_index + i])` (an `IndexError` past the end of `texts`);
allocation width `feat_dim * spectrogram + mfcc_dim * (not spectrogram)`; the
per-example assembly loop; and the returned dictionaries. -/
def get_batch_io (g : AudioGenerator) (enc : List Char → List Nat)
    (partition : String) : Except PyError (BatchInputs × BatchOutputs) := do
  let sel ← partitionSel g partition
  let audio_paths := sel.1
  let cur_index := sel.2.1
  let texts := sel.2.2
  let b := g.minimum_batch_size
  let features ← mapExcept (fun a => normalize g (featurize g a))
      ((audio_paths.drop cur_index).take b)
  if b = 0 then .error .valueError
  else if features.length < b then .error .indexError
  else if texts.length < cur_index + b then .error .indexError
  else
    let max_length := (features.map List.length).foldr Nat.max 0
    let twindow := (texts.drop cur_index).take b
    let max_string_length := (twindow.map List.length).foldr Nat.max 0
    let width := if g.spectrogram then g.feat_dim else g.mfcc_dim
    let rows ← mapExcept (assembleRow enc width max_length max_string_length)
        (features.zip twindow)
    .ok ({ the_input := rows.map (fun r => r.1.1)
           the_labels := rows.map (fun r => r.2.1)
           input_length := rows.map (fun r => r.1.2)
           label_length := rows.map (fun r => r.2.2) },
         { ctc := List.replicate b 0 })

/-- `get_batch` as a method call on the generator object: the body (lines 46-102)
contains no assignment to `self`, so the translation threads the object state
through unchanged alongside the returned dictionaries. -/
def get_batch (g : AudioGenerator) (enc : List Char → List Nat)
    (partition : String) :
    Except PyError (AudioGenerator × BatchInputs × BatchOutputs) :=
  (get_batch_io g enc partition).map (fun io => (g, io.1, io.2))

/-- `p` is a permutation of `range n` — the documented contract of
`numpy.random.permutation(n)`, whose draw is passed in explicitly. -/
abbrev IsPermOfRange (n : Nat) (p : List Nat) : Prop :=
  p.Perm (List.range n)

/-- Translation of the module-level `shuffle_data` (lines 141-153):
`p = np.random.permutation(len(audio_paths))` (the externally drawn permutation
`p` is an explicit argument), then the three comprehensions
`[xs[i] for i in p]`. -/
def shuffle_data [Inhabited α] [Inhabited β] (p : List Nat) (audio_paths : List α)
    (durations : List ℚ) (texts : List β) : List α × List ℚ × List β :=
  (p.map (fun i => audio_paths.getD i default),
   p.map (fun i => durations.getD i 0),
   p.map (fun i => texts.getD i default))

/-- Translation of `AudioGenerator.shuffle_data_by_partition` (lines 124-138):
reassigns the selected partition's three sequences to the result of
`shuffle_data` (with the externally drawn permutation `p`), raising on any
partition other than `train`/`valid`. -/
def shuffle_data_by_partition (g : AudioGenerator) (p : List Nat)
    (partition : String) : Except PyError AudioGenerator :=
  if partition = "train" then
    let r := shuffle_data p g.train_audio_paths g.train_durations g.train_texts
    .ok { g with train_audio_paths := r.1, train_durations := r.2.1,
                 train_texts := r.2.2 }
  else if partition = "valid" then
    let r := shuffle_data p g.valid_audio_paths g.valid_durations g.valid_texts
    .ok { g with valid_audio_paths := r.1, valid_durations := r.2.1,
                 valid_texts := r.2.2 }
  else .error (.exception "Invalid partition. Must be train/validation")

/-- `p` is a possible result of `numpy.argsort(durations)` per its documented
contract: a permutation of the index range such that the durations read through
`p` are non-decreasing.  The default sort kind (quicksort/introsort) does not
document any tie order, so every such `p` is admissible. -/
abbrev IsArgsortOf (durations : List ℚ) (p : List Nat) : Prop :=
  IsPermOfRange durations.length p ∧
    (p.map (fun i => durations.getD i 0)).Sorted (· ≤ ·)

/-- Translation of the module-level `sort_data` (lines 156-167):
`p = np.argsort(durations).tolist()` (the argsort result `p` is an explicit
argument), then the three comprehensions `[xs[i] for i in p]`. -/
def sort_data [Inhabited α] [Inhabited β] (p : List Nat) (audio_paths : List α)
    (durations : List ℚ) (texts : List β) : List α × List ℚ × List β :=
  (p.map (fun i => audio_paths.getD i default),
   p.map (fun i => durations.getD i 0),
   p.map (fun i => texts.getD i default))

instance exceptDecEq {ε α : Type} [DecidableEq ε] [DecidableEq α] :
    DecidableEq (Except ε α) := fun x y =>
  match x, y with
  | .ok a, .ok b =>
    if h : a = b then .isTrue (by rw [h]) else .isFalse (fun hc => h (by injection hc))
  | .ok _, .error _ => .isFalse (fun hc => Except.noConfusion hc)
  | .error _, .ok _ => .isFalse (fun hc => Except.noConfusion hc)
  | .error e, .error f =>
    if h : e = f then .isTrue (by rw [h]) else .isFalse (fun hc => h (by injection hc))

/-! ### Concrete example states, used to evaluate the definitions -/

/-- A concrete clip whose spectrogram is a 1×2 matrix. -/
def clipA : AudioClip := { spec_feat := [[1, 2]], mfcc_feat := [[1]] }

/-- A concrete clip whose spectrogram is a 2×2 matrix. -/
def clipB : AudioClip := { spec_feat := [[3, 4], [5, 6]], mfcc_feat := [[2]] }

/-- A concrete clip whose cepstral feature matrix is 1×13, the width
`mfcc(sig, rate, numcep=13)` produces at the source's default `mfcc_dim`. -/
def clipM : AudioClip :=
  { spec_feat := [[1, 2]], mfcc_feat := [(List.range 13).map (fun i => (i : ℚ))] }

/-- A concrete label encoder emitting one integer code per character. -/
def encex : List Char → List Nat := fun t => t.map Char.toNat

/-- A concrete generator state in spectrogram mode with a two-example training
window.  `feats_std` is `1 - eps` so that normalization is exactly the identity. -/
def gex : AudioGenerator :=
  { step := 10, window := 20, max_freq := 8000, feat_dim := 2, mfcc_dim := 13,
    feats_mean := [0, 0], feats_std := [1 - eps, 1 - eps],
    cur_train_index := 0, cur_valid_index := 0, cur_test_index := 0,
    test_valid_index := none, max_duration := 10, minimum_batch_size := 2,
    spectrogram := true, sort_by_duration := false,
    train_audio_paths := [clipA, clipB], train_durations := [1, 2],
    train_texts := [['a', 'b'], ['c']],
    valid_audio_paths := [], valid_durations := [], valid_texts := [],
    test_audio_paths := [clipA], test_durations := [1], test_texts := [['a']] }

/-- The inputs dictionary `get_batch` produces on `gex`'s training window: the
entries are spelled as the arithmetic expressions normalization computes, whose
values are `1, 2, 3, 4, 5, 6` since `(x - 0) / ((1 - eps) + eps) = x`. -/
def insex : BatchInputs :=
  { the_input :=
      [[[((1 : ℚ) - 0) / ((1 - eps) + eps), ((2 : ℚ) - 0) / ((1 - eps) + eps)],
        [0, 0]],
       [[((3 : ℚ) - 0) / ((1 - eps) + eps), ((4 : ℚ) - 0) / ((1 - eps) + eps)],
        [((5 : ℚ) - 0) / ((1 - eps) + eps), ((6 : ℚ) - 0) / ((1 - eps) + eps)]]],
    the_labels := [[((97 : ℕ) : ℚ), ((98 : ℕ) : ℚ)],
                   [((99 : ℕ) : ℚ), ((vocab_size : ℕ) : ℚ)]],
    input_length := [1, 2],
    label_length := [2, 1] }

/-- The outputs dictionary `get_batch` produces on `gex`'s training window. -/
def outsex : BatchOutputs := { ctc := [0, 0] }

/-- A concrete generator whose test partition holds one example and whose window
`[cur_test_index, cur_test_index + minimum_batch_size)` lies inside it. -/
def gtest : AudioGenerator :=
  { step := 10, window := 20, max_freq := 8000, feat_dim := 2, mfcc_dim := 13,
    feats_mean := [0, 0], feats_std := [1, 1],
    cur_train_index := 0, cur_valid_index := 0, cur_test_index := 0,
    test_valid_index := none, max_duration := 10, minimum_batch_size := 1,
    spectrogram := true, sort_by_duration := false,
    train_audio_paths := [clipA], train_durations := [1], train_texts := [['a']],
    valid_audio_paths := [clipA], valid_durations := [1], valid_texts := [['a']],
    test_audio_paths := [clipA], test_durations := [1], test_texts := [['a']] }

/-- The generator `init` builds in cepstral mode at the source's default
configuration (`step=10, window=20, max_freq=8000, mfcc_dim=13,
minimum_batch_size=20, spectrogram=False, max_duration=10`). -/
def gc5 : AudioGenerator :=
  init 10 20 8000 13 20 false 10 false [clipM] [1] [['a']] [] [] [] [] [] []

/-- A concrete generator whose train and valid partitions both hold two
parallel examples, for exercising the shuffling routines. -/
def gshuf : AudioGenerator :=
  { step := 10, window := 20, max_freq := 8000, feat_dim := 2, mfcc_dim := 13,
    feats_mean := [0, 0], feats_std := [1, 1],
    cur_train_index := 0, cur_valid_index := 0, cur_test_index := 0,
    test_valid_index := none, max_duration := 10, minimum_batch_size := 1,
    spectrogram := true, sort_by_duration := false,
    train_audio_paths := [clipA, clipB], train_durations := [1, 2],
    train_texts := [['a'], ['b']],
    valid_audio_paths := [clipB, clipA], valid_durations := [2, 1],
    valid_texts := [['c'], ['d']],
    test_audio_paths := [], test_durations := [], test_texts := [] }

/-! ### Helper lemmas -/

theorem le_foldrMax {l : List Nat} {a : Nat} (h : a ∈ l) : a ≤ l.foldr Nat.max 0 := by
  induction l with
  | nil => cases h
  | cons x xs ih =>
    rcases List.mem_cons.mp h with rfl | h'
    · exact Nat.le_max_left _ _
    · exact le_trans (ih h') (Nat.le_max_right _ _)

theorem foldrMax_mem {l : List Nat} (h : l ≠ []) : l.foldr Nat.max 0 ∈ l := by
  induction l with
  | nil => exact absurd rfl h
  | cons x xs ih =>
    cases xs with
    | nil => simp
    | cons y ys =>
      have hm : (y :: ys).foldr Nat.max 0 ∈ y :: ys := ih (by simp)
      rcases Nat.le_total x ((y :: ys).foldr Nat.max 0) with hxm | hxm
      · have hx : Nat.max x ((y :: ys).foldr Nat.max 0) = (y :: ys).foldr Nat.max 0 :=
          Nat.max_eq_right hxm
        rw [List.foldr_cons, hx]
        exact List.mem_cons_of_mem _ hm
      · have hx : Nat.max x ((y :: ys).foldr Nat.max 0) = x := Nat.max_eq_left hxm
        rw [List.foldr_cons, hx]
        exact List.mem_cons_self _ _

theorem mapExcept_ok_length {f : α → Except PyError β} {l : List α} {ys : List β}
    (h : mapExcept f l = .ok ys) : ys.length = l.length := by
  induction l generalizing ys with
  | nil =>
    simp only [mapExcept] at h
    cases h
    rfl
  | cons a as ih =>
    unfold mapExcept at h
    cases hfa : f a with
    | error e => rw [hfa] at h; simp [Bind.bind, Except.bind] at h
    | ok b =>
      rw [hfa] at h
      cases hrest : mapExcept f as with
      | error e => rw [hrest] at h; simp [Bind.bind, Except.bind] at h
      | ok bs =>
        rw [hrest] at h
        simp only [Bind.bind, Except.bind] at h
        cases h
        simp [ih hrest]

theorem mapExcept_ok_getD {f : α → Except PyError β} {l : List α} {ys : List β}
    (h : mapExcept f l = .ok ys) (i : Nat) (hi : i < l.length) (da : α) (db : β) :
    f (l.getD i da) = .ok (ys.getD i db) := by
  induction l generalizing ys i with
  | nil => exact absurd hi (by simp)
  | cons a as ih =>
    unfold mapExcept at h
    cases hfa : f a with
    | error e => rw [hfa] at h; simp [Bind.bind, Except.bind] at h
    | ok b =>
      rw [hfa] at h
      cases hrest : mapExcept f as with
      | error e => rw [hrest] at h; simp [Bind.bind, Except.bind] at h
      | ok bs =>
        rw [hrest] at h
        simp only [Bind.bind, Except.bind] at h
        cases h
        cases i with
        | zero => simpa using hfa
        | succ i =>
          simp only [List.getD_cons_succ]
          exact ih hrest i (by simpa using hi)

theorem mapExcept_ok_mem {f : α → Except PyError β} {l : List α} {ys : List β}
    (h : mapExcept f l = .ok ys) {y : β} (hy : y ∈ ys) : ∃ x ∈ l, f x = .ok y := by
  induction l generalizing ys with
  | nil =>
    simp only [mapExcept] at h
    cases h
    cases hy
  | cons a as ih =>
    unfold mapExcept at h
    cases hfa : f a with
    | error e => rw [hfa] at h; simp [Bind.bind, Except.bind] at h
    | ok b =>
      rw [hfa] at h
      cases hrest : mapExcept f as with
      | error e => rw [hrest] at h; simp [Bind.bind, Except.bind] at h
      | ok bs =>
        rw [hrest] at h
        simp only [Bind.bind, Except.bind] at h
        cases h
        rcases List.mem_cons.mp hy with rfl | hy'
        · exact ⟨a, List.mem_cons_self _ _, hfa⟩
        · obtain ⟨x, hx, hfx⟩ := ih hrest hy'
          exact ⟨x, List.mem_cons_of_mem _ hx, hfx⟩

theorem inputWrite_ok {width max_length : Nat} {feat : Mat} {m : Mat} {n : Nat}
    (h : inputWrite width max_length feat = .ok (m, n)) :
    (∀ row ∈ feat, row.length = width) ∧ feat.length ≤ max_length ∧
      n = feat.length ∧
      m = feat ++ List.replicate (max_length - feat.length) (List.replicate width 0) := by
  unfold inputWrite at h
  split at h
  case isTrue hc =>
    obtain ⟨hall, hle⟩ := hc
    cases h
    refine ⟨?_, hle, rfl, rfl⟩
    intro row hrow
    exact of_decide_eq_true (List.all_eq_true.mp hall row hrow)
  case isFalse => cases h

theorem labelWrite_ok {enc : List Char → List Nat} {max_string_length : Nat}
    {text : List Char} {q : List ℚ} {n : Nat}
    (h : labelWrite enc max_string_length text = .ok (q, n)) :
    (enc text).length ≤ max_string_length ∧ n = (enc text).length ∧
      q = (List.map (fun k => ((k : ℕ) : ℚ)) (enc text)) ++
        List.replicate (max_string_length - (enc text).length) ((vocab_size : ℚ)) := by
  unfold labelWrite at h
  split at h
  case isTrue hc => cases h; exact ⟨hc, rfl, rfl⟩
  case isFalse => cases h

theorem labelWrite_ok_of_le {enc : List Char → List Nat} {max_string_length : Nat}
    {text : List Char} (h : (enc text).length ≤ max_string_length) :
    labelWrite enc max_string_length text =
      .ok ((List.map (fun k => ((k : ℕ) : ℚ)) (enc text)) ++
             List.replicate (max_string_length - (enc text).length) ((vocab_size : ℚ)),
           (enc text).length) := by
  unfold labelWrite
  rw [if_pos h]

theorem assembleRow_ok {enc : List Char → List Nat}
    {width max_length max_string_length : Nat} {ft : Mat × List Char}
    {r : (Mat × Nat) × (List ℚ × Nat)}
    (h : assembleRow enc width max_length max_string_length ft = .ok r) :
    inputWrite width max_length ft.1 = .ok r.1 ∧
      labelWrite enc max_string_length ft.2 = .ok r.2 := by
  unfold assembleRow at h
  cases hiw : inputWrite width max_length ft.1 with
  | error e => rw [hiw] at h; simp [Bind.bind, Except.bind] at h
  | ok iw =>
    rw [hiw] at h
    cases hlw : labelWrite enc max_string_length ft.2 with
    | error e => rw [hlw] at h; simp [Bind.bind, Except.bind] at h
    | ok lw =>
      rw [hlw] at h
      simp only [Bind.bind, Except.bind] at h
      cases h
      exact ⟨by simp [hiw], by simp [hlw]⟩

theorem get_batch_ok_io {g : AudioGenerator} {enc : List Char → List Nat}
    {partition : String} {g' : AudioGenerator} {ins : BatchInputs} {outs : BatchOutputs}
    (h : get_batch g enc partition = .ok (g', ins, outs)) :
    g' = g ∧ get_batch_io g enc partition = .ok (ins, outs) := by
  unfold get_batch at h
  cases hio : get_batch_io g enc partition with
  | error e => rw [hio] at h; simp [Except.map] at h
  | ok io =>
    rw [hio] at h
    simp only [Except.map] at h
    injection h with h1
    injection h1 with hg h2
    injection h2 with hi ho
    exact ⟨hg.symm, by rw [← hi, ← ho]⟩

theorem get_batch_io_ok_inv {g : AudioGenerator} {enc : List Char → List Nat}
    {partition : String} {ins : BatchInputs} {outs : BatchOutputs}
    (h : get_batch_io g enc partition = .ok (ins, outs)) :
    ∃ (ap : List AudioClip) (cur : Nat) (txts : List (List Char))
      (features : List Mat) (rows : List ((Mat × Nat) × (List ℚ × Nat))),
      partitionSel g partition = .ok (ap, cur, txts) ∧
      mapExcept (fun a => normalize g (featurize g a))
          ((ap.drop cur).take g.minimum_batch_size) = .ok features ∧
      g.minimum_batch_size ≠ 0 ∧
      features.length = g.minimum_batch_size ∧
      cur + g.minimum_batch_size ≤ txts.length ∧
      ((txts.drop cur).take g.minimum_batch_size).length = g.minimum_batch_size ∧
      mapExcept
          (assembleRow enc (if g.spectrogram then g.feat_dim else g.mfcc_dim)
            ((features.map List.length).foldr Nat.max 0)
            ((((txts.drop cur).take g.minimum_batch_size).map List.length).foldr Nat.max 0))
          (features.zip ((txts.drop cur).take g.minimum_batch_size)) = .ok rows ∧
      rows.length = g.minimum_batch_size ∧
      ins = { the_input := rows.map (fun r => r.1.1),
              the_labels := rows.map (fun r => r.2.1),
              input_length := rows.map (fun r => r.1.2),
              label_length := rows.map (fun r => r.2.2) } ∧
      outs = { ctc := List.replicate g.minimum_batch_size 0 } := by
  unfold get_batch_io at h
  cases hsel : partitionSel g partition with
  | error e => rw [hsel] at h; simp [Bind.bind, Except.bind] at h
  | ok sel =>
    rw [hsel] at h
    simp only [Bind.bind, Except.bind] at h
    cases hf : mapExcept (fun a => normalize g (featurize g a))
        ((sel.1.drop sel.2.1).take g.minimum_batch_size) with
    | error e => rw [hf] at h; simp at h
    | ok features =>
      rw [hf] at h
      simp only [] at h
      split at h
      case isTrue => simp at h
      case isFalse hb =>
        split at h
        case isTrue => simp at h
        case isFalse hflen =>
          split at h
          case isTrue => simp at h
          case isFalse htxt =>
            cases hr : mapExcept
                (assembleRow enc (if g.spectrogram then g.feat_dim else g.mfcc_dim)
                  ((features.map List.length).foldr Nat.max 0)
                  ((((sel.2.2.drop sel.2.1).take g.minimum_batch_size).map
                      List.length).foldr Nat.max 0))
                (features.zip ((sel.2.2.drop sel.2.1).take g.minimum_batch_size)) with
            | error e => rw [hr] at h; simp at h
            | ok rows =>
              rw [hr] at h
              simp only [Bind.bind, Except.bind] at h
              injection h with h1
              injection h1 with hins houts
              have hlen := mapExcept_ok_length hf
              rw [List.length_take] at hlen
              have hfb : features.length = g.minimum_batch_size := by
                have h1 : features.length ≤ g.minimum_batch_size := by
                  rw [hlen]; exact min_le_left _ _
                omega
              have htw : ((sel.2.2.drop sel.2.1).take g.minimum_batch_size).length =
                  g.minimum_batch_size := by
                have hle : g.minimum_batch_size ≤ sel.2.2.length - sel.2.1 := by omega
                rw [List.length_take, List.length_drop, min_eq_left hle]
              have hrl : rows.length = g.minimum_batch_size := by
                rw [mapExcept_ok_length hr, List.length_zip, hfb, htw, min_self]
              exact ⟨sel.1, sel.2.1, sel.2.2, features, rows, rfl, hf, hb, hfb,
                by omega, htw, hr, hrl, hins.symm, houts.symm⟩

theorem map_getD_range {α : Type} (l : List α) (d : α) :
    (List.range l.length).map (fun i => l.getD i d) = l := by
  induction l with
  | nil => rfl
  | cons a as ih =>
    rw [List.length_cons, List.range_succ_eq_map, List.map_cons, List.map_map]
    simp only [List.getD_cons_zero, Function.comp_def, Nat.succ_eq_add_one,
      List.getD_cons_succ]
    rw [ih]

theorem range_map_zip3 {α β : Type} (ap : List α) (d : List ℚ) (t : List β)
    (da : α) (db : β) (hd : d.length = ap.length) (ht : t.length = ap.length) :
    (List.range ap.length).map
        (fun i => (ap.getD i da, d.getD i 0, t.getD i db)) = ap.zip (d.zip t) := by
  induction ap generalizing d t with
  | nil =>
    obtain rfl := List.length_eq_zero.mp hd
    obtain rfl := List.length_eq_zero.mp ht
    rfl
  | cons a as ih =>
    cases d with
    | nil => simp at hd
    | cons x ds =>
      cases t with
      | nil => simp at ht
      | cons y ts =>
        rw [List.length_cons, List.range_succ_eq_map, List.map_cons, List.map_map]
        simp only [List.getD_cons_zero, Function.comp_def, Nat.succ_eq_add_one,
          List.getD_cons_succ]
        rw [List.zip_cons_cons, List.zip_cons_cons,
          ih ds ts (by simpa using hd) (by simpa using ht)]

theorem zip3_map_getD_perm {α β : Type} [Inhabited α] [Inhabited β]
    (p : List Nat) (ap : List α) (d : List ℚ) (t : List β)
    (hd : d.length = ap.length) (ht : t.length = ap.length)
    (hp : IsPermOfRange ap.length p) :
    ((p.map (fun i => ap.getD i default)).zip
        ((p.map (fun i => d.getD i 0)).zip
          (p.map (fun i => t.getD i default)))).Perm (ap.zip (d.zip t)) := by
  rw [List.zip_map', List.zip_map']
  have h := List.Perm.map
    (fun i => (ap.getD i default, d.getD i 0, t.getD i default)) hp
  rwa [range_map_zip3 ap d t default default hd ht] at h

theorem calc_feat_dim_defaults : calc_feat_dim 20 8000 = 161 := by
  norm_num [calc_feat_dim]
  decide

/-! ### Claims -/

/-- C2 (evaluation at the failing input): on a generator whose test window
`[cur_test_index, cur_test_index + minimum_batch_size)` lies inside the test
partition's sequences, `get_batch` on the recognized partition value `test`
nevertheless fails — reading the never-assigned `test_valid_index` attribute —
rather than completing; unrecognized partition names raise the invalid-partition
errors from both `get_batch` and `shuffle_data_by_partition`. -/
theorem get_batch_test_partition_attribute_error :
    gtest.cur_test_index + gtest.minimum_batch_size ≤ gtest.test_audio_paths.length ∧
    gtest.cur_test_index + gtest.minimum_batch_size ≤ gtest.test_texts.length ∧
    get_batch gtest encex "test" = .error .attributeError ∧
    get_batch gtest encex "bogus" =
      .error (.exception "Invalid partition. Must be train/validation or test") ∧
    shuffle_data_by_partition gtest [0] "bogus" =
      .error (.exception "Invalid partition. Must be train/validation") :=
  ⟨by decide, by decide, rfl, rfl, rfl⟩

/-- C8: `get_batch` mutates no generator or partition state: on any successful
call the post-state equals the pre-state, so all partition cursors, the
normalization statistics and every partition's three parallel sequences are
unchanged; cursor advancement is the caller's responsibility. -/
theorem get_batch_no_state_mutation (g : AudioGenerator)
    (enc : List Char → List Nat) (partition : String) (g' : AudioGenerator)
    (ins : BatchInputs) (outs : BatchOutputs)
    (h : get_batch g enc partition = .ok (g', ins, outs)) : g' = g :=
  (get_batch_ok_io h).1

/-- Witness for C8: the hypothesis holds at a concrete state and the theorem
applies there. -/
theorem get_batch_no_state_mutation_witness :
    get_batch gex encex "train" = .ok (gex, insex, outsex) ∧ gex = gex :=
  ⟨rfl, get_batch_no_state_mutation gex encex "train" gex insex outsex rfl⟩

/-- C9: the result of `get_batch` is independent of the stored duration-sort
flag: two generator states identical except for `sort_by_duration` produce equal
inputs/outputs dictionaries for every partition, cursor state and encoder — the
flag is stored at construction but never consulted by the batch-assembly path. -/
theorem get_batch_independent_of_sort_flag (g : AudioGenerator) (b1 b2 : Bool)
    (enc : List Char → List Nat) (partition : String) :
    (get_batch { g with sort_by_duration := b1 } enc partition).map
        (fun r => (r.2.1, r.2.2)) =
      (get_batch { g with sort_by_duration := b2 } enc partition).map
        (fun r => (r.2.1, r.2.2)) := by
  have h1 : get_batch_io { g with sort_by_duration := b1 } enc partition =
      get_batch_io g enc partition := rfl
  have h2 : get_batch_io { g with sort_by_duration := b2 } enc partition =
      get_batch_io g enc partition := rfl
  unfold get_batch
  rw [h1, h2]
  cases get_batch_io g enc partition <;> rfl

/-- Witness for C9 at a concrete state and flag values. -/
theorem get_batch_independent_of_sort_flag_witness :
    (get_batch { gex with sort_by_duration := true } encex "train").map
        (fun r => (r.2.1, r.2.2)) =
      (get_batch { gex with sort_by_duration := false } encex "train").map
        (fun r => (r.2.1, r.2.2)) :=
  get_batch_independent_of_sort_flag gex true false encex "train"

/-- C10: the label tensor is allocated with width the maximum transcript
character count over the window, each row receives the encoded sequence with
`label_length` recording the encoded length; the write stays within the
allocated width with `label_length` equal to the transcript's character count,
for every example of every window, exactly when the encoder emits one integer
per character. -/
theorem label_row_write_iff_one_code_per_char (enc : List Char → List Nat) :
    (∀ t : List Char, (enc t).length = t.length) ↔
    (∀ (ts : List (List Char)), ∀ t ∈ ts,
      ∃ row : List ℚ,
        labelWrite enc ((ts.map List.length).foldr Nat.max 0) t =
          .ok (row, t.length)) := by
  constructor
  · intro hone ts t hts
    have hle : (enc t).length ≤ (ts.map List.length).foldr Nat.max 0 := by
      rw [hone t]
      exact le_foldrMax (List.mem_map_of_mem _ hts)
    exact ⟨_, by rw [labelWrite_ok_of_le hle, hone t]⟩
  · intro hall t
    obtain ⟨row, hrow⟩ := hall [t] t (List.mem_singleton_self t)
    obtain ⟨-, hn, -⟩ := labelWrite_ok hrow
    exact hn.symm

/-- Witness for C10 at a concrete encoder emitting one code per character. -/
theorem label_row_write_iff_one_code_per_char_witness :
    (∀ t : List Char, (encex t).length = t.length) ↔
    (∀ (ts : List (List Char)), ∀ t ∈ ts,
      ∃ row : List ℚ,
        labelWrite encex ((ts.map List.length).foldr Nat.max 0) t =
          .ok (row, t.length)) :=
  label_row_write_iff_one_code_per_char encex

theorem bcastOp_eq_of_width {f : ℚ → ℚ → ℚ} {m : Mat} {v : List ℚ}
    (hw : ∀ row ∈ m, row.length = v.length)
    (hh : (m.headD []).length = v.length) :
    bcastOp f m v = .ok (m.map (fun row => row.zipWith f v)) := by
  unfold bcastOp
  rw [if_pos, if_pos hh]
  refine List.all_eq_true.mpr ?_
  intro row hrow
  exact decide_eq_true ((hw row hrow).trans hh.symm)

theorem bcastOp_error_of_mismatch {f : ℚ → ℚ → ℚ} {m : Mat} {v : List ℚ}
    (hrect : ∀ row ∈ m, row.length = (m.headD []).length)
    (h1 : (m.headD []).length ≠ v.length) (h2 : v.length ≠ 1)
    (h3 : (m.headD []).length ≠ 1) :
    bcastOp f m v = .error .valueError := by
  unfold bcastOp
  rw [if_pos, if_neg h1, if_neg h2, if_neg h3]
  refine List.all_eq_true.mpr ?_
  intro row hrow
  exact decide_eq_true (hrect row hrow)

theorem normalize_eq_of_width {g : AudioGenerator} {feature : Mat}
    (hne : feature ≠ [])
    (hw : ∀ row ∈ feature, row.length = g.feats_mean.length)
    (hs : g.feats_std.length = g.feats_mean.length) :
    normalize g feature =
      .ok ((feature.map
            (fun row => row.zipWith (fun a b => a - b) g.feats_mean)).map
          (fun row => row.zipWith (fun a b => a / b)
            (g.feats_std.map (fun s => s + eps)))) := by
  obtain ⟨f0, rest, rfl⟩ : ∃ f0 rest, feature = f0 :: rest := by
    cases feature with
    | nil => exact absurd rfl hne
    | cons f0 rest => exact ⟨f0, rest, rfl⟩
  have hh : ((f0 :: rest).headD []).length = g.feats_mean.length :=
    hw f0 (List.mem_cons_self _ _)
  unfold normalize
  rw [bcastOp_eq_of_width hw hh]
  simp only [Bind.bind, Except.bind]
  apply bcastOp_eq_of_width
  · intro row hrow
    obtain ⟨r0, hr0, rfl⟩ := List.mem_map.mp hrow
    rw [List.length_zipWith, hw r0 hr0, List.length_map, hs, min_self]
  · simp only [List.map_cons, List.headD_cons, List.length_zipWith,
      List.length_map, hs]
    rw [hw f0 (List.mem_cons_self _ _), min_self]

/-- C5 (amended): `normalize` computes `(feature - mean) / (std + eps)` with
`eps = 1e-14` and succeeds whenever the (nonempty) feature matrix's rows have the
statistics vectors' common length — which holds for spectrogram-mode features of
width `feat_dim`; it is not the case that the statistics match the feature
dimension of the active mode in both modes (see the counterexample for cepstral
mode). -/
theorem normalize_succeeds_on_matching_width (g : AudioGenerator) (feature : Mat)
    (hne : feature ≠ [])
    (hw : ∀ row ∈ feature, row.length = g.feats_mean.length)
    (hs : g.feats_std.length = g.feats_mean.length) :
    ∃ res, normalize g feature = .ok res ∧ res.length = feature.length ∧
      ∀ i j, i < feature.length → j < g.feats_mean.length →
        (res.getD i []).getD j 0 =
          ((feature.getD i []).getD j 0 - g.feats_mean.getD j 0) /
            (g.feats_std.getD j 0 + eps) := by
  refine ⟨_, normalize_eq_of_width hne hw hs, by simp, ?_⟩
  intro i j hi hj
  have hi1 : i < ((feature.map
      (fun row => row.zipWith (fun a b => a - b) g.feats_mean)).map
        (fun row => row.zipWith (fun a b => a / b)
          (g.feats_std.map (fun s => s + eps)))).length := by simpa using hi
  rw [List.getD_eq_getElem _ _ hi1, List.getElem_map, List.getElem_map]
  have hrow : feature[i].length = g.feats_mean.length :=
    hw feature[i] (List.getElem_mem hi)
  have hj1 : j < ((feature[i].zipWith (fun a b => a - b)
      g.feats_mean).zipWith (fun a b => a / b)
        (g.feats_std.map (fun s => s + eps))).length := by
    simp [List.length_zipWith, hrow, hs, hj]
  rw [List.getD_eq_getElem _ _ hj1, List.getElem_zipWith, List.getElem_zipWith,
    List.getElem_map, List.getD_eq_getElem _ _ hi,
    List.getD_eq_getElem _ _ (by rw [hrow]; exact hj),
    List.getD_eq_getElem _ _ hj, List.getD_eq_getElem _ _ (by rw [hs]; exact hj)]

/-- Witness for C5's amended theorem at a concrete spectrogram-mode state. -/
theorem normalize_succeeds_on_matching_width_witness :
    (([[1, 2]] : Mat) ≠ [] ∧
      (∀ row ∈ ([[1, 2]] : Mat), row.length = gex.feats_mean.length) ∧
      gex.feats_std.length = gex.feats_mean.length) ∧
    (∃ res, normalize gex [[1, 2]] = .ok res ∧ res.length = ([[1, 2]] : Mat).length ∧
      ∀ i j, i < ([[1, 2]] : Mat).length → j < gex.feats_mean.length →
        (res.getD i []).getD j 0 =
          ((([[1, 2]] : Mat).getD i []).getD j 0 - gex.feats_mean.getD j 0) /
            (gex.feats_std.getD j 0 + eps)) :=
  ⟨⟨by decide, by decide, by decide⟩,
    normalize_succeeds_on_matching_width gex [[1, 2]] (by decide) (by decide)
      (by decide)⟩

/-- C5 (counterexample): on the generator `init` builds at the source's default
configuration in cepstral mode, the statistics vectors keep the spectrogram
length 161 while the cepstral feature matrix produced by `featurize` has width
`mfcc_dim = 13`, so the statistics do not match the active mode's feature
dimension and `normalize` fails on a finite featurized matrix. -/
theorem normalize_broadcast_mode_mismatch :
    gc5.spectrogram = false ∧
    (∀ row ∈ featurize gc5 clipM, row.length = gc5.mfcc_dim) ∧
    gc5.mfcc_dim = 13 ∧
    gc5.feats_mean.length = 161 ∧
    gc5.feats_std.length = 161 ∧
    normalize gc5 (featurize gc5 clipM) = .error .valueError := by
  have hm : gc5.feats_mean.length = 161 := by
    show (List.replicate (calc_feat_dim 20 8000) (0 : ℚ)).length = 161
    rw [List.length_replicate, calc_feat_dim_defaults]
  have hsd : gc5.feats_std.length = 161 := by
    show (List.replicate (calc_feat_dim 20 8000) (1 : ℚ)).length = 161
    rw [List.length_replicate, calc_feat_dim_defaults]
  refine ⟨rfl, by decide, rfl, hm, hsd, ?_⟩
  unfold normalize
  rw [bcastOp_error_of_mismatch (by decide) (by rw [hm]; decide) (by rw [hm]; decide)
    (by decide)]
  rfl

theorem map_getD_of_lt {γ δ : Type} (f : γ → δ) (p : List γ) (i : Nat)
    (hi : i < p.length) (dg : γ) (dd : δ) :
    (p.map f).getD i dd = f (p.getD i dg) := by
  rw [List.getD_eq_getElem _ _ (by simpa using hi), List.getElem_map,
    List.getD_eq_getElem _ _ hi]

/-- C6 (amended): for equal-length parallel lists and any permutation satisfying
the argsort contract on the durations, `sort_data` reorders the three lists by
that one common permutation, the output durations are non-decreasing, and the
multiset of (audio, duration, text) triples is preserved; the tie order is
whatever the underlying argsort returns (stability is not guaranteed, see the
counterexample). -/
theorem sort_data_sorted_and_multiset_preserving {α β : Type}
    [Inhabited α] [Inhabited β] (p : List Nat) (ap : List α) (d : List ℚ)
    (t : List β) (hd : d.length = ap.length) (ht : t.length = ap.length)
    (hp : IsArgsortOf d p) :
    ((sort_data p ap d t).2.1.Sorted (· ≤ ·)) ∧
    (∀ i, i < p.length →
      ((sort_data p ap d t).1.getD i default,
       (sort_data p ap d t).2.1.getD i 0,
       (sort_data p ap d t).2.2.getD i default) =
      (ap.getD (p.getD i 0) default, d.getD (p.getD i 0) 0,
       t.getD (p.getD i 0) default)) ∧
    ((sort_data p ap d t).1.zip
      ((sort_data p ap d t).2.1.zip (sort_data p ap d t).2.2)).Perm
        (ap.zip (d.zip t)) := by
  obtain ⟨hperm, hsorted⟩ := hp
  refine ⟨hsorted, ?_, ?_⟩
  · intro i hi
    show ((p.map (fun k => ap.getD k default)).getD i default,
          (p.map (fun k => d.getD k 0)).getD i 0,
          (p.map (fun k => t.getD k default)).getD i default) = _
    rw [map_getD_of_lt (fun k => ap.getD k default) p i hi 0 default,
      map_getD_of_lt (fun k => d.getD k 0) p i hi 0 0,
      map_getD_of_lt (fun k => t.getD k default) p i hi 0 default]
  · have hp' : IsPermOfRange ap.length p := by rw [hd] at hperm; exact hperm
    exact zip3_map_getD_perm p ap d t hd ht hp'

/-- Witness for C6's amended theorem at a concrete input and argsort result. -/
theorem sort_data_sorted_and_multiset_preserving_witness :
    (([(2 : ℚ), 1] : List ℚ).length = (["a", "b"] : List String).length ∧
      (["x", "y"] : List String).length = (["a", "b"] : List String).length ∧
      IsArgsortOf [(2 : ℚ), 1] [1, 0]) ∧
    (((sort_data [1, 0] ["a", "b"] [(2 : ℚ), 1] ["x", "y"]).2.1.Sorted (· ≤ ·)) ∧
     (∀ i, i < ([1, 0] : List Nat).length →
       ((sort_data [1, 0] ["a", "b"] [(2 : ℚ), 1] ["x", "y"]).1.getD i default,
        (sort_data [1, 0] ["a", "b"] [(2 : ℚ), 1] ["x", "y"]).2.1.getD i 0,
        (sort_data [1, 0] ["a", "b"] [(2 : ℚ), 1] ["x", "y"]).2.2.getD i default) =
       ((["a", "b"] : List String).getD (([1, 0] : List Nat).getD i 0) default,
        ([(2 : ℚ), 1] : List ℚ).getD (([1, 0] : List Nat).getD i 0) 0,
        (["x", "y"] : List String).getD (([1, 0] : List Nat).getD i 0) default)) ∧
     ((sort_data [1, 0] ["a", "b"] [(2 : ℚ), 1] ["x", "y"]).1.zip
       ((sort_data [1, 0] ["a", "b"] [(2 : ℚ), 1] ["x", "y"]).2.1.zip
         (sort_data [1, 0] ["a", "b"] [(2 : ℚ), 1] ["x", "y"]).2.2)).Perm
           ((["a", "b"] : List String).zip
             (([(2 : ℚ), 1] : List ℚ).zip (["x", "y"] : List String)))) :=
  ⟨⟨by decide, by decide, by decide⟩,
    sort_data_sorted_and_multiset_preserving [1, 0] ["a", "b"] [(2 : ℚ), 1]
      ["x", "y"] (by decide) (by decide) (by decide)⟩

/-- C6 (counterexample): stability fails.  On tied durations the argsort
contract (`numpy.argsort` with its default, non-stable quicksort) admits the
swapping permutation, under which examples with equal durations do not keep
their original relative order — the stable outcome at this input would be the
identity reordering. -/
theorem sort_data_stability_not_guaranteed :
    IsArgsortOf [(1 : ℚ), 1] [1, 0] ∧
    sort_data [1, 0] ["a", "b"] [(1 : ℚ), 1] ["x", "y"] =
      (["b", "a"], [(1 : ℚ), 1], ["y", "x"]) ∧
    ¬ (∀ p : List Nat, IsArgsortOf [(1 : ℚ), 1] p →
        sort_data p ["a", "b"] [(1 : ℚ), 1] ["x", "y"] =
          (["a", "b"], [(1 : ℚ), 1], ["x", "y"])) := by
  refine ⟨by decide, by decide, fun hstable => ?_⟩
  exact absurd (hstable [1, 0] (by decide)) (by decide)

/-- C7: each call to `shuffle_data` applies one single permutation identically
to the audio-reference, duration, and transcript sequences, so the multiset of
(audio, duration, text) triples is preserved and only the order changes; hence
`shuffle_data_by_partition` on `train` and on `valid` succeeds and preserves
that partition's triple multiset. -/
theorem shuffle_single_permutation_multiset_preserved {α β : Type}
    [Inhabited α] [Inhabited β] (p : List Nat) (ap : List α) (d : List ℚ)
    (t : List β) (g : AudioGenerator)
    (hd : d.length = ap.length) (ht : t.length = ap.length)
    (hp : IsPermOfRange ap.length p)
    (hgd : g.train_durations.length = g.train_audio_paths.length)
    (hgt : g.train_texts.length = g.train_audio_paths.length)
    (hgp : IsPermOfRange g.train_audio_paths.length p)
    (hvd : g.valid_durations.length = g.valid_audio_paths.length)
    (hvt : g.valid_texts.length = g.valid_audio_paths.length)
    (hvp : IsPermOfRange g.valid_audio_paths.length p) :
    (∀ i, i < p.length →
      ((shuffle_data p ap d t).1.getD i default,
       (shuffle_data p ap d t).2.1.getD i 0,
       (shuffle_data p ap d t).2.2.getD i default) =
      (ap.getD (p.getD i 0) default, d.getD (p.getD i 0) 0,
       t.getD (p.getD i 0) default)) ∧
    ((shuffle_data p ap d t).1.zip
      ((shuffle_data p ap d t).2.1.zip (shuffle_data p ap d t).2.2)).Perm
        (ap.zip (d.zip t)) ∧
    (∃ g', shuffle_data_by_partition g p "train" = .ok g' ∧
      (g'.train_audio_paths.zip
        (g'.train_durations.zip g'.train_texts)).Perm
          (g.train_audio_paths.zip
            (g.train_durations.zip g.train_texts))) ∧
    (∃ g', shuffle_data_by_partition g p "valid" = .ok g' ∧
      (g'.valid_audio_paths.zip
        (g'.valid_durations.zip g'.valid_texts)).Perm
          (g.valid_audio_paths.zip
            (g.valid_durations.zip g.valid_texts))) := by
  refine ⟨?_, zip3_map_getD_perm p ap d t hd ht hp, ?_, ?_⟩
  · intro i hi
    show ((p.map (fun k => ap.getD k default)).getD i default,
          (p.map (fun k => d.getD k 0)).getD i 0,
          (p.map (fun k => t.getD k default)).getD i default) = _
    rw [map_getD_of_lt (fun k => ap.getD k default) p i hi 0 default,
      map_getD_of_lt (fun k => d.getD k 0) p i hi 0 0,
      map_getD_of_lt (fun k => t.getD k default) p i hi 0 default]
  · exact ⟨_, rfl, zip3_map_getD_perm p g.train_audio_paths g.train_durations
      g.train_texts hgd hgt hgp⟩
  · exact ⟨_, rfl, zip3_map_getD_perm p g.valid_audio_paths g.valid_durations
      g.valid_texts hvd hvt hvp⟩

/-- Witness for C7 at a concrete permutation draw and generator state. -/
theorem shuffle_single_permutation_multiset_preserved_witness :
    (([(1 : ℚ), 2] : List ℚ).length = (["a", "b"] : List String).length ∧
      (["x", "y"] : List String).length = (["a", "b"] : List String).length ∧
      IsPermOfRange (["a", "b"] : List String).length [1, 0] ∧
      gshuf.train_durations.length = gshuf.train_audio_paths.length ∧
      gshuf.train_texts.length = gshuf.train_audio_paths.length ∧
      IsPermOfRange gshuf.train_audio_paths.length [1, 0] ∧
      gshuf.valid_durations.length = gshuf.valid_audio_paths.length ∧
      gshuf.valid_texts.length = gshuf.valid_audio_paths.length ∧
      IsPermOfRange gshuf.valid_audio_paths.length [1, 0]) ∧
    (((shuffle_data [1, 0] ["a", "b"] [(1 : ℚ), 2] ["x", "y"]).1.zip
        ((shuffle_data [1, 0] ["a", "b"] [(1 : ℚ), 2] ["x", "y"]).2.1.zip
          (shuffle_data [1, 0] ["a", "b"] [(1 : ℚ), 2] ["x", "y"]).2.2)).Perm
            ((["a", "b"] : List String).zip
              (([(1 : ℚ), 2] : List ℚ).zip (["x", "y"] : List String))) ∧
      (∃ g', shuffle_data_by_partition gshuf [1, 0] "train" = .ok g' ∧
        (g'.train_audio_paths.zip
          (g'.train_durations.zip g'.train_texts)).Perm
            (gshuf.train_audio_paths.zip
              (gshuf.train_durations.zip gshuf.train_texts))) ∧
      (∃ g', shuffle_data_by_partition gshuf [1, 0] "valid" = .ok g' ∧
        (g'.valid_audio_paths.zip
          (g'.valid_durations.zip g'.valid_texts)).Perm
            (gshuf.valid_audio_paths.zip
              (gshuf.valid_durations.zip gshuf.valid_texts)))) := by
  have h := shuffle_single_permutation_multiset_preserved [1, 0]
    (["a", "b"] : List String) [(1 : ℚ), 2] (["x", "y"] : List String) gshuf
    (by decide) (by decide) (by decide) (by decide) (by decide) (by decide)
    (by decide) (by decide) (by decide)
  exact ⟨⟨by decide, by decide, by decide, by decide, by decide, by decide,
    by decide, by decide, by decide⟩, h.2.1, h.2.2.1, h.2.2.2⟩

/-- C3: every array a successful `get_batch` returns — the input tensor, the
label tensor, the input-length vector, the label-length vector and the ctc
output placeholder — has first dimension exactly the configured minimum batch
size; there is never a partial batch. -/
theorem get_batch_first_dims_eq_batch_size (g : AudioGenerator)
    (enc : List Char → List Nat) (partition : String) (g' : AudioGenerator)
    (ins : BatchInputs) (outs : BatchOutputs)
    (h : get_batch g enc partition = .ok (g', ins, outs)) :
    ins.the_input.length = g.minimum_batch_size ∧
    ins.the_labels.length = g.minimum_batch_size ∧
    ins.input_length.length = g.minimum_batch_size ∧
    ins.label_length.length = g.minimum_batch_size ∧
    outs.ctc.length = g.minimum_batch_size := by
  obtain ⟨-, hio⟩ := get_batch_ok_io h
  obtain ⟨ap, cur, txts, features, rows, hsel, hf, hb, hfb, hcur, htw, hr, hrl,
    hins, houts⟩ := get_batch_io_ok_inv hio
  subst hins
  subst houts
  refine ⟨?_, ?_, ?_, ?_, ?_⟩ <;>
    simp [List.length_map, List.length_replicate, hrl]

/-- Witness for C3: the hypothesis holds at a concrete state and the theorem
applies there. -/
theorem get_batch_first_dims_eq_batch_size_witness :
    get_batch gex encex "train" = .ok (gex, insex, outsex) ∧
    (insex.the_input.length = gex.minimum_batch_size ∧
     insex.the_labels.length = gex.minimum_batch_size ∧
     insex.input_length.length = gex.minimum_batch_size ∧
     insex.label_length.length = gex.minimum_batch_size ∧
     outsex.ctc.length = gex.minimum_batch_size) :=
  ⟨rfl, get_batch_first_dims_eq_batch_size gex encex "train" gex insex outsex rfl⟩

/-- C4: on every successful call, the returned input tensor's time dimension
equals the exact maximum time-step count over the window's normalized feature
matrices, and the label tensor's width equals the exact maximum transcript
character count over the window's texts — each an upper bound that is attained,
so no larger and no smaller than the true per-call maxima. -/
theorem get_batch_exact_window_maxima (g : AudioGenerator)
    (enc : List Char → List Nat) (partition : String) (g' : AudioGenerator)
    (ins : BatchInputs) (outs : BatchOutputs)
    (ap : List AudioClip) (cur : Nat) (txts : List (List Char))
    (hsel : partitionSel g partition = .ok (ap, cur, txts))
    (h : get_batch g enc partition = .ok (g', ins, outs)) :
    (∀ features,
      mapExcept (fun a => normalize g (featurize g a))
          ((ap.drop cur).take g.minimum_batch_size) = .ok features →
      ∀ row ∈ ins.the_input,
        (∀ f ∈ features, f.length ≤ row.length) ∧
        (∃ f ∈ features, f.length = row.length)) ∧
    (∀ lrow ∈ ins.the_labels,
      (∀ tx ∈ (txts.drop cur).take g.minimum_batch_size,
        tx.length ≤ lrow.length) ∧
      (∃ tx ∈ (txts.drop cur).take g.minimum_batch_size,
        tx.length = lrow.length)) := by
  obtain ⟨-, hio⟩ := get_batch_ok_io h
  obtain ⟨ap', cur', txts', features', rows, hsel', hf', hb, hfb, hcur, htw, hr,
    hrl, hins, houts⟩ := get_batch_io_ok_inv hio
  rw [hsel] at hsel'
  injection hsel' with h1
  injection h1 with ha h2
  injection h2 with hc ht2
  subst ha
  subst hc
  subst ht2
  subst hins
  constructor
  · intro features hfeat row hrow
    rw [hf'] at hfeat
    injection hfeat with hfe
    subst hfe
    obtain ⟨r, hrmem, rfl⟩ := List.mem_map.mp hrow
    obtain ⟨pair, hpmem, hpr⟩ := mapExcept_ok_mem hr hrmem
    obtain ⟨hiw, hlw⟩ := assembleRow_ok hpr
    obtain ⟨-, hle, -, hm⟩ := inputWrite_ok (m := r.1.1) (n := r.1.2) hiw
    have hrowlen : r.1.1.length = (features'.map List.length).foldr Nat.max 0 := by
      rw [hm, List.length_append, List.length_replicate]
      omega
    constructor
    · intro f hfmem
      rw [hrowlen]
      exact le_foldrMax (List.mem_map_of_mem _ hfmem)
    · have hne : features' ≠ [] := by
        intro hnil
        rw [hnil] at hfb
        exact hb (by simpa using hfb.symm)
      obtain ⟨f, hfmem, hflen⟩ :=
        List.mem_map.mp (foldrMax_mem (l := features'.map List.length)
          (by simpa using hne))
      exact ⟨f, hfmem, by rw [hrowlen]; exact hflen⟩
  · intro lrow hlrow
    obtain ⟨r, hrmem, rfl⟩ := List.mem_map.mp hlrow
    obtain ⟨pair, hpmem, hpr⟩ := mapExcept_ok_mem hr hrmem
    obtain ⟨hiw, hlw⟩ := assembleRow_ok hpr
    obtain ⟨hle, -, hroweq⟩ := labelWrite_ok (q := r.2.1) (n := r.2.2) hlw
    have hrowlen : r.2.1.length =
        (((txts.drop cur).take g.minimum_batch_size).map List.length).foldr
          Nat.max 0 := by
      rw [hroweq, List.length_append, List.length_map, List.length_replicate]
      omega
    constructor
    · intro tx htx
      rw [hrowlen]
      exact le_foldrMax (List.mem_map_of_mem _ htx)
    · have hne : (txts.drop cur).take g.minimum_batch_size ≠ [] := by
        intro hnil
        rw [hnil] at htw
        exact hb (by simpa using htw.symm)
      obtain ⟨tx, htxm, htxl⟩ :=
        List.mem_map.mp (foldrMax_mem
          (l := ((txts.drop cur).take g.minimum_batch_size).map List.length)
          (by simpa using hne))
      exact ⟨tx, htxm, by rw [hrowlen]; exact htxl⟩

/-- Witness for C4: both hypotheses hold at a concrete state and the theorem
applies there. -/
theorem get_batch_exact_window_maxima_witness :
    partitionSel gex "train" = .ok ([clipA, clipB], 0, [['a', 'b'], ['c']]) ∧
    get_batch gex encex "train" = .ok (gex, insex, outsex) ∧
    ((∀ features,
      mapExcept (fun a => normalize gex (featurize gex a))
          ((([clipA, clipB] : List AudioClip).drop 0).take
            gex.minimum_batch_size) = .ok features →
      ∀ row ∈ insex.the_input,
        (∀ f ∈ features, f.length ≤ row.length) ∧
        (∃ f ∈ features, f.length = row.length)) ∧
     (∀ lrow ∈ insex.the_labels,
       (∀ tx ∈ (([['a', 'b'], ['c']] : List (List Char)).drop 0).take
           gex.minimum_batch_size, tx.length ≤ lrow.length) ∧
       (∃ tx ∈ (([['a', 'b'], ['c']] : List (List Char)).drop 0).take
           gex.minimum_batch_size, tx.length = lrow.length))) :=
  ⟨rfl, rfl, get_batch_exact_window_maxima gex encex "train" gex insex outsex
    [clipA, clipB] 0 [['a', 'b'], ['c']] rfl rfl⟩

/-- C1: on every successful call, each example's input rows at time indices at
or beyond the recorded `input_length` are exactly zero, and each example's
label entries at column indices at or beyond the recorded `label_length` are
exactly the blank ID `vocab_size` (one past the last real character code). -/
theorem get_batch_padding_invariant (g : AudioGenerator)
    (enc : List Char → List Nat) (partition : String) (g' : AudioGenerator)
    (ins : BatchInputs) (outs : BatchOutputs)
    (h : get_batch g enc partition = .ok (g', ins, outs)) :
    (∀ i t, ins.input_length.getD i 0 ≤ t →
      ∀ x ∈ (ins.the_input.getD i []).getD t [], x = 0) ∧
    (∀ i j, ins.label_length.getD i 0 ≤ j →
      j < (ins.the_labels.getD i []).length →
      (ins.the_labels.getD i []).getD j 0 = ((vocab_size : ℕ) : ℚ)) := by
  obtain ⟨-, hio⟩ := get_batch_ok_io h
  obtain ⟨ap, cur, txts, features, rows, hsel, hf, hb, hfb, hcur, htw, hr, hrl,
    hins, houts⟩ := get_batch_io_ok_inv hio
  have hthe_input : ins.the_input = rows.map (fun r => r.1.1) := by rw [hins]
  have hinp_len : ins.input_length = rows.map (fun r => r.1.2) := by rw [hins]
  have hlabels : ins.the_labels = rows.map (fun r => r.2.1) := by rw [hins]
  have hlab_len : ins.label_length = rows.map (fun r => r.2.2) := by rw [hins]
  constructor
  · intro i t hle x hx
    rw [hthe_input] at hx
    rw [hinp_len] at hle
    by_cases hi : i < rows.length
    · rw [map_getD_of_lt (fun r => r.1.1) rows i hi ((([], 0), ([], 0))) []] at hx
      rw [map_getD_of_lt (fun r => r.1.2) rows i hi ((([], 0), ([], 0))) 0] at hle
      have hizip : i < (features.zip
          ((txts.drop cur).take g.minimum_batch_size)).length := by
        rw [List.length_zip, hfb, htw, min_self, ← hrl]
        exact hi
      have hrow := mapExcept_ok_getD hr i hizip ([], []) ((([], 0), ([], 0)))
      obtain ⟨hiw, hlw⟩ := assembleRow_ok hrow
      obtain ⟨-, hlen2, hn, hm⟩ := inputWrite_ok
        (m := (rows.getD i ((([], 0), ([], 0)))).1.1)
        (n := (rows.getD i ((([], 0), ([], 0)))).1.2) hiw
      rw [hm] at hx
      rw [hn] at hle
      rw [List.getD_append_right _ _ _ _ hle] at hx
      by_cases ht3 : t - ((features.zip
          ((txts.drop cur).take g.minimum_batch_size)).getD i ([], [])).1.length <
          (features.map List.length).foldr Nat.max 0 -
            ((features.zip
              ((txts.drop cur).take g.minimum_batch_size)).getD i ([], [])).1.length
      · rw [List.getD_eq_getElem _ _ (by simpa using ht3),
          List.getElem_replicate] at hx
        exact List.eq_of_mem_replicate hx
      · rw [List.getD_eq_default _ _
          (by simpa using Nat.le_of_not_lt ht3)] at hx
        simp at hx
    · rw [List.getD_eq_default (l := rows.map (fun r => r.1.1)) (d := ([] : Mat))
        (by simpa using Nat.le_of_not_lt hi)] at hx
      simp at hx
  · intro i j hle hlt
    rw [hlabels] at hlt ⊢
    rw [hlab_len] at hle
    by_cases hi : i < rows.length
    · rw [map_getD_of_lt (fun r => r.2.1) rows i hi ((([], 0), ([], 0))) []] at hlt ⊢
      rw [map_getD_of_lt (fun r => r.2.2) rows i hi ((([], 0), ([], 0))) 0] at hle
      have hizip : i < (features.zip
          ((txts.drop cur).take g.minimum_batch_size)).length := by
        rw [List.length_zip, hfb, htw, min_self, ← hrl]
        exact hi
      have hrow := mapExcept_ok_getD hr i hizip ([], []) ((([], 0), ([], 0)))
      obtain ⟨hiw, hlw⟩ := assembleRow_ok hrow
      obtain ⟨hlemsl, hn, hroweq⟩ := labelWrite_ok
        (q := (rows.getD i ((([], 0), ([], 0)))).2.1)
        (n := (rows.getD i ((([], 0), ([], 0)))).2.2) hlw
      rw [hroweq] at hlt ⊢
      rw [hn] at hle
      have hmaplen : (List.map (fun k => ((k : ℕ) : ℚ))
          (enc ((features.zip
            ((txts.drop cur).take g.minimum_batch_size)).getD i ([], [])).2)).length ≤
          j := by
        rw [List.length_map]
        exact hle
      rw [List.getD_append_right _ _ _ _ hmaplen]
      rw [List.length_append, List.length_map, List.length_replicate] at hlt
      rw [List.getD_eq_getElem _ _
        (by rw [List.length_replicate, List.length_map]; omega),
        List.getElem_replicate]
    · rw [List.getD_eq_default (l := rows.map (fun r => r.2.1)) (d := ([] : List ℚ))
        (by simpa using Nat.le_of_not_lt hi)] at hlt
      simp at hlt

/-- Witness for C1: the hypothesis holds at a concrete state and the theorem
applies there. -/
theorem get_batch_padding_invariant_witness :
    get_batch gex encex "train" = .ok (gex, insex, outsex) ∧
    ((∀ i t, insex.input_length.getD i 0 ≤ t →
       ∀ x ∈ (insex.the_input.getD i []).getD t [], x = 0) ∧
     (∀ i j, insex.label_length.getD i 0 ≤ j →
       j < (insex.the_labels.getD i []).length →
       (insex.the_labels.getD i []).getD j 0 = ((vocab_size : ℕ) : ℚ))) :=
  ⟨rfl, get_batch_padding_invariant gex encex "train" gex insex outsex rfl⟩

end Preprocessing
